import Mathlib

/-!
# Verification of the whack-a-block game core (`src/views/GameView.vue`)

Shallow embedding of the game-loop state machine of the reaction-speed
browser game: a 6×12 grid of cells, a spawner activating random inactive
cells, a 100ms decay ticker, click-to-score resolution with a 200ms
deferred removal, and a session controller (start / stop / reset).

All definitions are transcribed from the `<script setup>` block of
`GameView.vue`.  Timer callbacks and `setTimeout` completions are modelled
as explicit operations (`Op`) applied to an explicit state (`GState`);
`Math.random` is modelled by an arbitrary choice parameter `k`, reduced
modulo the number of candidates exactly as `Math.floor(Math.random()*n)`
always lands in `[0, n)`.
-/

namespace GameView

/-- One grid cell, as in the `Cell` interface of the source. -/
structure Cell where
  id : Nat
  row : Nat
  col : Nat
  isActive : Bool
  timeLeft : Int
  isAnimating : Bool
  deriving Repr, DecidableEq, Inhabited

/-- `BOARD_ROWS` from the source. -/
def BOARD_ROWS : Nat := 6

/-- `BOARD_COLS` from the source. -/
def BOARD_COLS : Nat := 12

/-- The whole reactive game state of the component: the refs `level`,
`score`, `totalSpawned`, `gameBoard`, the three timer handles,
`gameTimeLeft` and `isGameRunning`. -/
structure GState where
  level : Nat
  score : Nat
  totalSpawned : Nat
  gameBoard : List Cell
  gameInterval : Option Nat
  updateInterval : Option Nat
  gameTimer : Option Nat
  gameTimeLeft : Int
  isGameRunning : Bool
  deriving Repr, DecidableEq, Inhabited

/-- `whiteDuration` computed: `Math.max(1, 6 - level)` (seconds). -/
def whiteDuration (level : Nat) : Nat := max 1 (6 - level)

/-- `spawnRate` computed: `Math.min(10, level * 2)`. -/
def spawnRate (level : Nat) : Nat := min 10 (level * 2)

/-- `spawnInterval` computed: `Math.max(500, 5000 / spawnRate)` in ms
(rational, as the JS division is not integer division). -/
def spawnInterval (level : Nat) : ℚ := max 500 (5000 / (spawnRate level : ℚ))

/-- `initBoard`: rebuild the board as 6×12 = 72 inactive cells with
row-major ids. -/
def initBoard : List Cell :=
  (List.range BOARD_ROWS).flatMap (fun row =>
    (List.range BOARD_COLS).map (fun col =>
      { id := row * BOARD_COLS + col, row := row, col := col,
        isActive := false, timeLeft := 0, isAnimating := false }))

/-- `spawnWhiteBlock`: filter the inactive cells; if none, return; else
pick one (index `k % count` models the uniform random pick, which always
lands in range), set it active with `timeLeft = whiteDuration * 1000`, and
increment `totalSpawned`.  The JS mutates the chosen cell object in place;
here the board position of the chosen cell is updated with `List.set`. -/
def spawnWhiteBlock (k : Nat) (s : GState) : GState :=
  let availableIdxs := (List.range s.gameBoard.length).filter
    (fun i => !(s.gameBoard.getD i default).isActive)
  if availableIdxs.length = 0 then s
  else
    let i := availableIdxs.getD (k % availableIdxs.length) 0
    let c := s.gameBoard.getD i default
    { s with
      gameBoard := s.gameBoard.set i
        { c with isActive := true, timeLeft := (whiteDuration s.level : Int) * 1000 },
      totalSpawned := s.totalSpawned + 1 }

/-- `clickCell` (synchronous part): `if (!cell.isActive || !isGameRunning)
return`; otherwise set `isAnimating = true` and increment `score`.  Note
the guard does NOT test `isAnimating`. -/
def clickCell (i : Nat) (s : GState) : GState :=
  let c := s.gameBoard.getD i default
  if !c.isActive || !s.isGameRunning then s
  else
    { s with
      gameBoard := s.gameBoard.set i { c with isAnimating := true },
      score := s.score + 1 }

/-- The deferred completion scheduled by `clickCell` via
`setTimeout(..., 200)`: set `isActive = false`, `isAnimating = false`,
`timeLeft = 0` on the clicked cell. -/
def clickComplete (i : Nat) (s : GState) : GState :=
  let c := s.gameBoard.getD i default
  { s with
    gameBoard := s.gameBoard.set i
      { c with isActive := false, isAnimating := false, timeLeft := 0 } }

/-- One step of `updateGame` on a single cell: if `isActive && !isAnimating`,
subtract 100 from `timeLeft` and, if the result is ≤ 0, expire the cell
(`isActive = false`, `timeLeft = 0`); otherwise leave the cell alone. -/
def decayCell (c : Cell) : Cell :=
  if c.isActive && !c.isAnimating then
    let t := c.timeLeft - 100
    if t ≤ 0 then { c with isActive := false, timeLeft := 0 }
    else { c with timeLeft := t }
  else c

/-- `updateGame`: apply the decay step to every cell of the board. -/
def updateGame (s : GState) : GState :=
  { s with gameBoard := s.gameBoard.map decayCell }

/-- `stopGame`: set `isGameRunning = false` and clear the three timer
handles (the JS `if (handle) clearInterval` null-checks leave the same
final state). -/
def stopGame (s : GState) : GState :=
  { s with isGameRunning := false, gameInterval := none,
           updateInterval := none, gameTimer := none }

/-- `startGame`: `stopGame()` then rebuild the board, zero the counters,
set `gameTimeLeft = 60`, `isGameRunning = true`, and register the three
interval timers (handle values are opaque ids from `setInterval`; modelled
as fixed fresh ids, only their presence matters). -/
def startGame (s : GState) : GState :=
  let s1 := stopGame s
  { s1 with gameBoard := initBoard, score := 0, totalSpawned := 0,
            gameTimeLeft := 60, isGameRunning := true,
            gameInterval := some 1, updateInterval := some 2, gameTimer := some 3 }

/-- `resetGame`: `stopGame()` then rebuild the board, zero the counters,
restore `gameTimeLeft = 60`, `isGameRunning = false`. -/
def resetGame (s : GState) : GState :=
  let s1 := stopGame s
  { s1 with gameBoard := initBoard, score := 0, totalSpawned := 0,
            gameTimeLeft := 60, isGameRunning := false }

/-- `hitRate` computed: 0 when `totalSpawned` is 0, else
`Math.round(score / totalSpawned * 100)` (`Math.round` rounds half toward
+∞ on non-negatives, as does Mathlib `round`). -/
def hitRate (score totalSpawned : Nat) : Int :=
  if totalSpawned = 0 then 0
  else round ((score : ℚ) / (totalSpawned : ℚ) * 100)

/-- The events that mutate the game state during and around a round:
spawner ticks, decay ticks, clicks and their deferred completions, and the
session-controller entry points. -/
inductive Op where
  | spawn (k : Nat)
  | decay
  | click (i : Nat)
  | clickDone (i : Nat)
  | start
  | stop
  | reset
  deriving Repr, DecidableEq

/-- Apply one event to the state. -/
def applyOp : Op → GState → GState
  | Op.spawn k, s => spawnWhiteBlock k s
  | Op.decay, s => updateGame s
  | Op.click i, s => clickCell i s
  | Op.clickDone i, s => clickComplete i s
  | Op.start, s => startGame s
  | Op.stop, s => stopGame s
  | Op.reset, s => resetGame s

/-- Apply a sequence of events, oldest first. -/
def applyOps (ops : List Op) (s : GState) : GState :=
  ops.foldl (fun st op => applyOp op st) s

/-- The component state right after `onMounted` (`initBoard()` has run,
counters at their declared values, nothing running). -/
def initState : GState :=
  { level := 1, score := 0, totalSpawned := 0, gameBoard := initBoard,
    gameInterval := none, updateInterval := none, gameTimer := none,
    gameTimeLeft := 60, isGameRunning := false }

/-- A fresh running round at level 1: `startGame` from the mounted state. -/
def freshStart : GState := startGame initState

/-- The per-cell invariant of the spec: the cell is not both inactive and
holding positive `timeLeft`, and its `timeLeft` is not negative. -/
def cellInvP (c : Cell) : Prop :=
  ¬(c.isActive = false ∧ 0 < c.timeLeft) ∧ 0 ≤ c.timeLeft

instance (c : Cell) : Decidable (cellInvP c) := by
  unfold cellInvP; infer_instance

/-- The cell-state invariant of the spec, over the whole board: no cell is
inactive with positive `timeLeft`, and no cell has negative `timeLeft`. -/
def boardInv (s : GState) : Prop :=
  ∀ c ∈ s.gameBoard, cellInvP c

instance (s : GState) : Decidable (boardInv s) := by
  unfold boardInv; infer_instance

/-- A level-1 round in which cell 5 has just been spawned (lifetime
5000 ms). -/
def scenarioA : GState := spawnWhiteBlock 5 freshStart

/-- The state right after that spawned cell 5 has been clicked once
(cell 5 is active and animating; its 200 ms completion is still pending). -/
def clickedOnce : GState := clickCell 5 scenarioA

/-- C1: the claim says a click on an animating cell is a no-op, but the
code checks only `!cell.isActive || !isGameRunning`, not `isAnimating`:
clicking cell 5 again while it is active, animating and the session is
running increments `score` from 1 to 2 instead of leaving the state
unchanged. -/
theorem click_animating_not_noop :
    clickedOnce.isGameRunning = true ∧
    (clickedOnce.gameBoard.getD 5 default).isActive = true ∧
    (clickedOnce.gameBoard.getD 5 default).isAnimating = true ∧
    clickedOnce.score = 1 ∧
    (clickCell 5 clickedOnce).score = 2 ∧
    clickCell 5 clickedOnce ≠ clickedOnce := by decide

/-- C2: the invariant `score ≤ totalSpawned` fails on the code: from a
fresh start, the event sequence spawn-at-0, click-0, click-0 (the second
click lands inside the 200 ms animation window) reaches a state with
score = 2 and totalSpawned = 1. -/
theorem score_can_exceed_totalSpawned :
    (applyOps [Op.spawn 0, Op.click 0, Op.click 0] freshStart).score = 2 ∧
    (applyOps [Op.spawn 0, Op.click 0, Op.click 0] freshStart).totalSpawned = 1 ∧
    ¬((applyOps [Op.spawn 0, Op.click 0, Op.click 0] freshStart).score ≤
      (applyOps [Op.spawn 0, Op.click 0, Op.click 0] freshStart).totalSpawned) := by
  decide

/-- C3 counterexample: at level 1 the spawned block has lifetime 5000 ms,
so after 5 decay ticks of 100 ms cell 5 is still active with
timeLeft = 4500 — not inactive with timeLeft = 0 as the scenario claims. -/
theorem scenarioA_five_ticks_not_expired :
    ((applyOps (List.replicate 5 Op.decay) scenarioA).gameBoard.getD 5 default).isActive
      = true ∧
    ((applyOps (List.replicate 5 Op.decay) scenarioA).gameBoard.getD 5 default).timeLeft
      = 4500 ∧
    ¬(((applyOps (List.replicate 5 Op.decay) scenarioA).gameBoard.getD 5 default).isActive
        = false ∧
      ((applyOps (List.replicate 5 Op.decay) scenarioA).gameBoard.getD 5 default).timeLeft
        = 0) := by decide

set_option maxRecDepth 20000 in
/-- C3 amended: at level 1, after one block is spawned at cell 5 with
lifetime 5000 ms, it takes 50 decay ticks of 100 ms (not 5) with no click
for cell 5 to become inactive with timeLeft = 0; the decay ticks leave
totalSpawned and score unchanged. -/
theorem scenarioA_fifty_ticks_expire :
    scenarioA.level = 1 ∧
    (scenarioA.gameBoard.getD 5 default).isActive = true ∧
    (scenarioA.gameBoard.getD 5 default).timeLeft = 5000 ∧
    ((applyOps (List.replicate 50 Op.decay) scenarioA).gameBoard.getD 5 default).isActive
      = false ∧
    ((applyOps (List.replicate 50 Op.decay) scenarioA).gameBoard.getD 5 default).timeLeft
      = 0 ∧
    (applyOps (List.replicate 50 Op.decay) scenarioA).totalSpawned
      = scenarioA.totalSpawned ∧
    (applyOps (List.replicate 50 Op.decay) scenarioA).score = scenarioA.score := by
  decide

/-- C6: over levels 1..5 the difficulty parameters are
`whiteDuration·1000 = max(1, 6 − level)·1000` (strictly decreasing in the
level), `spawnRate = min(10, level·2)`, and
`spawnInterval = max(500, 5000 / spawnRate)`, always ≥ 500; at level 5
they are 1000 ms, 10, and 500 ms. -/
theorem difficulty_params :
    (∀ level, 1 ≤ level → level ≤ 5 →
      whiteDuration level * 1000 = max 1 (6 - level) * 1000) ∧
    (∀ l1 l2, 1 ≤ l1 → l1 < l2 → l2 ≤ 5 →
      whiteDuration l2 * 1000 < whiteDuration l1 * 1000) ∧
    (∀ level, 1 ≤ level → level ≤ 5 → spawnRate level = min 10 (level * 2)) ∧
    (∀ level, 1 ≤ level → level ≤ 5 →
      spawnInterval level = max 500 (5000 / (spawnRate level : ℚ)) ∧
      500 ≤ spawnInterval level) ∧
    whiteDuration 5 * 1000 = 1000 ∧ spawnRate 5 = 10 ∧ spawnInterval 5 = 500 := by
  refine ⟨fun l _ _ => rfl, ?_, fun l _ _ => rfl,
    fun l _ _ => ⟨rfl, le_max_left _ _⟩, by norm_num [whiteDuration],
    by norm_num [spawnRate], by norm_num [spawnInterval, spawnRate]⟩
  intro l1 l2 h1 h12 h25
  simp only [whiteDuration]
  omega

/-- Witness for C6 at concrete levels. -/
theorem difficulty_params_witness :
    whiteDuration 2 * 1000 = max 1 (6 - 2) * 1000 ∧
    whiteDuration 4 * 1000 < whiteDuration 2 * 1000 ∧
    spawnRate 3 = min 10 (3 * 2) ∧
    500 ≤ spawnInterval 3 :=
  ⟨difficulty_params.1 2 (by decide) (by decide),
   difficulty_params.2.1 2 4 (by decide) (by decide) (by decide),
   difficulty_params.2.2.1 3 (by decide) (by decide),
   (difficulty_params.2.2.2.1 3 (by decide) (by decide)).2⟩

/-- C7: `hitRate` is 0 when `totalSpawned = 0` and
`round(score / totalSpawned · 100)` otherwise; score 15 over 20 spawns
gives 75. -/
theorem hitRate_spec (score totalSpawned : Nat) :
    (totalSpawned = 0 → hitRate score totalSpawned = 0) ∧
    (0 < totalSpawned →
      hitRate score totalSpawned = round ((score : ℚ) / (totalSpawned : ℚ) * 100)) ∧
    hitRate 15 20 = 75 := by
  refine ⟨fun h => by simp [hitRate, h],
    fun h => by simp [hitRate, Nat.pos_iff_ne_zero.mp h], ?_⟩
  norm_num [hitRate]

/-- Witness for C7: both branches at concrete inputs. -/
theorem hitRate_spec_witness :
    hitRate 0 0 = 0 ∧ hitRate 15 20 = round ((15 : ℚ) / (20 : ℚ) * 100) :=
  ⟨(hitRate_spec 0 0).1 rfl, (hitRate_spec 15 20).2.1 (by decide)⟩

/-- The rebuilt board has exactly 6 × 12 = 72 cells. -/
lemma initBoard_length : initBoard.length = 72 := by decide

/-- Every cell of the rebuilt board is inactive, with no time left and not
animating. -/
lemma initBoard_cells :
    ∀ c ∈ initBoard, c.isActive = false ∧ c.timeLeft = 0 ∧ c.isAnimating = false := by
  decide

/-- C9: `resetGame` is idempotent, and its result is the reset state: the
72 cells rebuilt inactive with timeLeft = 0 and not animating, zero
counters, round time 60, not running, all three timer handles cleared. -/
theorem resetGame_idempotent (s : GState) :
    resetGame (resetGame s) = resetGame s ∧
    (resetGame s).gameBoard.length = 72 ∧
    (∀ c ∈ (resetGame s).gameBoard,
      c.isActive = false ∧ c.timeLeft = 0 ∧ c.isAnimating = false) ∧
    (resetGame s).score = 0 ∧ (resetGame s).totalSpawned = 0 ∧
    (resetGame s).gameTimeLeft = 60 ∧ (resetGame s).isGameRunning = false ∧
    (resetGame s).gameInterval = none ∧ (resetGame s).updateInterval = none ∧
    (resetGame s).gameTimer = none :=
  ⟨rfl, initBoard_length, initBoard_cells, rfl, rfl, rfl, rfl, rfl, rfl, rfl⟩

/-- Witness for C9: resetting twice from the mounted state equals
resetting once. -/
theorem resetGame_idempotent_witness :
    resetGame (resetGame initState) = resetGame initState :=
  (resetGame_idempotent initState).1

/-- C10: `stopGame` from a running state sets `isGameRunning = false` and
clears the three timer handles, and leaves the board (hence every cell's
fields), score, totalSpawned, remaining round time and level untouched. -/
theorem stopGame_frame (s : GState) (_h : s.isGameRunning = true) :
    (stopGame s).isGameRunning = false ∧
    (stopGame s).gameInterval = none ∧
    (stopGame s).updateInterval = none ∧
    (stopGame s).gameTimer = none ∧
    (stopGame s).gameBoard = s.gameBoard ∧
    (stopGame s).score = s.score ∧
    (stopGame s).totalSpawned = s.totalSpawned ∧
    (stopGame s).gameTimeLeft = s.gameTimeLeft ∧
    (stopGame s).level = s.level :=
  ⟨rfl, rfl, rfl, rfl, rfl, rfl, rfl, rfl, rfl⟩

/-- Witness for C10: `stopGame` on a concrete running state. -/
theorem stopGame_frame_witness :
    freshStart.isGameRunning = true ∧ (stopGame freshStart).score = freshStart.score :=
  ⟨rfl, (stopGame_frame freshStart rfl).2.2.2.2.2.1⟩

/-- `decayCell` fixes the default cell, so `getD` commutes with mapping it
over the board. -/
lemma getD_map_decayCell (l : List Cell) (i : Nat) :
    (l.map decayCell).getD i default = decayCell (l.getD i default) := by
  induction l generalizing i with
  | nil =>
    simp only [List.map_nil, List.getD_nil]
    decide
  | cons a t ih =>
    cases i with
    | zero => simp [List.getD_cons_zero]
    | succ n => simpa [List.getD_cons_succ] using ih n

/-- C4: a decay tick leaves score, totalSpawned and the session fields
unchanged; on every cell with `isActive ∧ ¬isAnimating` it subtracts 100
from `timeLeft`, expiring the cell (`isActive := false`, `timeLeft := 0`)
exactly when the decremented value is ≤ 0; inactive or animating cells
are untouched. -/
theorem decay_tick_spec (s : GState) (i : Nat) :
    (updateGame s).score = s.score ∧
    (updateGame s).totalSpawned = s.totalSpawned ∧
    (updateGame s).gameTimeLeft = s.gameTimeLeft ∧
    (updateGame s).isGameRunning = s.isGameRunning ∧
    (updateGame s).gameBoard.length = s.gameBoard.length ∧
    ((s.gameBoard.getD i default).isActive = true →
      (s.gameBoard.getD i default).isAnimating = false →
      (((s.gameBoard.getD i default).timeLeft - 100 ≤ 0 →
        (updateGame s).gameBoard.getD i default =
          { s.gameBoard.getD i default with isActive := false, timeLeft := 0 }) ∧
      (0 < (s.gameBoard.getD i default).timeLeft - 100 →
        (updateGame s).gameBoard.getD i default =
          { s.gameBoard.getD i default with
            timeLeft := (s.gameBoard.getD i default).timeLeft - 100 }))) ∧
    (((s.gameBoard.getD i default).isActive = false ∨
      (s.gameBoard.getD i default).isAnimating = true) →
      (updateGame s).gameBoard.getD i default = s.gameBoard.getD i default) := by
  have hboard : (updateGame s).gameBoard = s.gameBoard.map decayCell := rfl
  refine ⟨rfl, rfl, rfl, rfl, by simp [hboard], ?_, ?_⟩
  · intro hact hanim
    rw [hboard, getD_map_decayCell]
    have hb : ((s.gameBoard.getD i default).isActive &&
        !(s.gameBoard.getD i default).isAnimating) = true := by
      rw [hact, hanim]
      rfl
    have hd : decayCell (s.gameBoard.getD i default) =
        if (s.gameBoard.getD i default).timeLeft - 100 ≤ 0 then
          { s.gameBoard.getD i default with isActive := false, timeLeft := 0 }
        else
          { s.gameBoard.getD i default with
            timeLeft := (s.gameBoard.getD i default).timeLeft - 100 } := by
      unfold decayCell
      rw [if_pos hb]
    constructor
    · intro ht
      rw [hd, if_pos ht]
    · intro ht
      rw [hd, if_neg (by omega)]
  · intro hcase
    rw [hboard, getD_map_decayCell]
    have hb : ((s.gameBoard.getD i default).isActive &&
        !(s.gameBoard.getD i default).isAnimating) = false := by
      rcases hcase with h | h <;> rw [h] <;> simp
    unfold decayCell
    rw [hb]
    simp

/-- Witness for C4 on a concrete state: a freshly spawned cell 5 decays
from 5000 to 4900 while the counters are untouched. -/
theorem decay_tick_spec_witness :
    (updateGame scenarioA).score = scenarioA.score ∧
    (updateGame scenarioA).gameBoard.getD 5 default =
      { scenarioA.gameBoard.getD 5 default with
        timeLeft := (scenarioA.gameBoard.getD 5 default).timeLeft - 100 } :=
  ⟨(decay_tick_spec scenarioA 5).1,
   ((decay_tick_spec scenarioA 5).2.2.2.2.2.1 (by decide) (by decide)).2 (by decide)⟩

/-- The default cell satisfies the per-cell invariant. -/
lemma cellInvP_default : cellInvP default := by decide

/-- Under the board invariant, reading any position (in range or not)
yields a cell satisfying the per-cell invariant. -/
lemma cellInvP_getD (s : GState) (hs : boardInv s) (i : Nat) :
    cellInvP (s.gameBoard.getD i default) := by
  by_cases h : i < s.gameBoard.length
  · rw [List.getD_eq_getElem _ _ h]
    exact hs _ (List.getElem_mem h)
  · rw [List.getD_eq_default _ _ (le_of_not_lt h)]
    exact cellInvP_default

/-- The decay step preserves the per-cell invariant. -/
lemma decayCell_inv {c : Cell} (h : cellInvP c) : cellInvP (decayCell c) := by
  unfold decayCell
  by_cases hb : (c.isActive && !c.isAnimating) = true
  · rw [if_pos hb]
    show cellInvP
      (if c.timeLeft - 100 ≤ 0 then { c with isActive := false, timeLeft := 0 }
       else { c with timeLeft := c.timeLeft - 100 })
    by_cases ht : c.timeLeft - 100 ≤ 0
    · rw [if_pos ht]
      simp [cellInvP]
    · rw [if_neg ht]
      have hb' := hb
      simp only [Bool.and_eq_true, Bool.not_eq_true'] at hb'
      refine ⟨?_, ?_⟩
      · simp [hb'.1]
      · show (0 : Int) ≤ c.timeLeft - 100
        omega
  · rw [if_neg hb]
    exact h

/-- C5: the invariant "no cell is inactive with positive timeLeft, and no
timeLeft is negative" holds in the freshly mounted state and is preserved
by every operation: spawner tick, decay tick, click, its deferred 200 ms
completion, start, stop and reset. -/
theorem invariant_all_ops :
    boardInv initState ∧
    ∀ (op : Op) (s : GState), boardInv s → boardInv (applyOp op s) := by
  refine ⟨by decide, ?_⟩
  intro op s hs
  cases op with
  | spawn k =>
    show boardInv (spawnWhiteBlock k s)
    intro c hc
    simp only [spawnWhiteBlock] at hc
    split at hc
    · exact hs c hc
    · dsimp only at hc
      rcases List.mem_or_eq_of_mem_set hc with hmem | rfl
      · exact hs c hmem
      · refine ⟨by simp, ?_⟩
        exact mul_nonneg (Int.natCast_nonneg _) (by norm_num)
  | decay =>
    show boardInv (updateGame s)
    intro c hc
    rcases List.mem_map.mp hc with ⟨a, ha, rfl⟩
    exact decayCell_inv (hs a ha)
  | click i =>
    show boardInv (clickCell i s)
    intro c hc
    simp only [clickCell] at hc
    split at hc
    · exact hs c hc
    · rcases List.mem_or_eq_of_mem_set hc with hmem | rfl
      · exact hs c hmem
      · exact cellInvP_getD s hs i
  | clickDone i =>
    show boardInv (clickComplete i s)
    intro c hc
    simp only [clickComplete] at hc
    rcases List.mem_or_eq_of_mem_set hc with hmem | rfl
    · exact hs c hmem
    · simp [cellInvP]
  | start =>
    intro c hc
    have hb : (applyOp Op.start s).gameBoard = initBoard := rfl
    rw [hb] at hc
    rcases initBoard_cells c hc with ⟨-, ht, -⟩
    simp [cellInvP, ht]
  | stop =>
    exact hs
  | reset =>
    intro c hc
    have hb : (applyOp Op.reset s).gameBoard = initBoard := rfl
    rw [hb] at hc
    rcases initBoard_cells c hc with ⟨-, ht, -⟩
    simp [cellInvP, ht]

/-- Witness for C5: the invariant propagates through a decay tick on the
concrete state with a freshly spawned cell. -/
theorem invariant_all_ops_witness :
    boardInv (applyOp Op.decay scenarioA) :=
  invariant_all_ops.2 Op.decay scenarioA (by decide)

/-- Writing one position of the board leaves every other position as it
was. -/
lemma getD_set_ne (l : List Cell) {i j : Nat} (h : i ≠ j) (a : Cell) :
    (l.set i a).getD j default = l.getD j default := by
  simp [List.getD_eq_getElem?_getD, List.getElem?_set_ne h]

/-- Indices in the spawner scan are in range and point at inactive cells. -/
lemma mem_spawn_scan {s : GState} {i : Nat}
    (hi : i ∈ (List.range s.gameBoard.length).filter
      (fun i => !(s.gameBoard.getD i default).isActive)) :
    i < s.gameBoard.length ∧ (s.gameBoard.getD i default).isActive = false := by
  rw [List.mem_filter, List.mem_range] at hi
  exact ⟨hi.1, by simpa using hi.2⟩

/-- C8: a spawner tick with every cell active is a no-op; with at least
one inactive cell it selects an inactive cell, activates it with
`timeLeft = whiteDuration(level)·1000`, increments `totalSpawned` by one
and leaves every other cell and the rest of the state — in particular the
score — unchanged. -/
theorem spawner_tick_spec (k : Nat) (s : GState) :
    ((∀ c ∈ s.gameBoard, c.isActive = true) → spawnWhiteBlock k s = s) ∧
    ((∃ c ∈ s.gameBoard, c.isActive = false) →
      ∃ i < s.gameBoard.length,
        (s.gameBoard.getD i default).isActive = false ∧
        (spawnWhiteBlock k s).gameBoard =
          s.gameBoard.set i
            { s.gameBoard.getD i default with
              isActive := true,
              timeLeft := (whiteDuration s.level : Int) * 1000 } ∧
        (spawnWhiteBlock k s).totalSpawned = s.totalSpawned + 1 ∧
        (spawnWhiteBlock k s).score = s.score ∧
        (spawnWhiteBlock k s).level = s.level ∧
        (spawnWhiteBlock k s).isGameRunning = s.isGameRunning ∧
        (spawnWhiteBlock k s).gameTimeLeft = s.gameTimeLeft ∧
        ∀ j, j ≠ i →
          (spawnWhiteBlock k s).gameBoard.getD j default =
            s.gameBoard.getD j default) := by
  constructor
  · intro hall
    have hLnil : (List.range s.gameBoard.length).filter
        (fun i => !(s.gameBoard.getD i default).isActive) = [] := by
      rw [List.eq_nil_iff_forall_not_mem]
      intro i hi
      obtain ⟨hilen, hinact⟩ := mem_spawn_scan hi
      have hval : (s.gameBoard.getD i default).isActive = true :=
        hall _ (by rw [List.getD_eq_getElem _ _ hilen]; exact List.getElem_mem hilen)
      rw [hval] at hinact
      cases hinact
    have hL0 : ((List.range s.gameBoard.length).filter
        (fun i => !(s.gameBoard.getD i default).isActive)).length = 0 := by
      rw [hLnil]
      rfl
    show spawnWhiteBlock k s = s
    simp only [spawnWhiteBlock, if_pos hL0]
  · intro hex
    have hLne : ((List.range s.gameBoard.length).filter
        (fun i => !(s.gameBoard.getD i default).isActive)).length ≠ 0 := by
      rcases hex with ⟨c, hc, hcact⟩
      rcases List.mem_iff_getElem.mp hc with ⟨i, hilen, hieq⟩
      have hiL : i ∈ (List.range s.gameBoard.length).filter
          (fun i => !(s.gameBoard.getD i default).isActive) := by
        rw [List.mem_filter, List.mem_range]
        refine ⟨hilen, ?_⟩
        rw [List.getD_eq_getElem _ _ hilen, hieq, hcact]
        rfl
      intro h0
      rw [List.length_eq_zero] at h0
      rw [h0] at hiL
      exact List.not_mem_nil _ hiL
    have hklt : k % ((List.range s.gameBoard.length).filter
          (fun i => !(s.gameBoard.getD i default).isActive)).length <
        ((List.range s.gameBoard.length).filter
          (fun i => !(s.gameBoard.getD i default).isActive)).length :=
      Nat.mod_lt _ (Nat.pos_of_ne_zero hLne)
    set i0 := ((List.range s.gameBoard.length).filter
        (fun i => !(s.gameBoard.getD i default).isActive)).getD
        (k % ((List.range s.gameBoard.length).filter
          (fun i => !(s.gameBoard.getD i default).isActive)).length) 0 with hi0
    have hchosen : i0 ∈ (List.range s.gameBoard.length).filter
        (fun i => !(s.gameBoard.getD i default).isActive) := by
      rw [hi0, List.getD_eq_getElem _ _ hklt]
      exact List.getElem_mem hklt
    obtain ⟨hilen, hinact⟩ := mem_spawn_scan hchosen
    have hsp : spawnWhiteBlock k s =
        { s with
          gameBoard := s.gameBoard.set i0
            { s.gameBoard.getD i0 default with
              isActive := true,
              timeLeft := (whiteDuration s.level : Int) * 1000 },
          totalSpawned := s.totalSpawned + 1 } := by
      rw [hi0]
      simp only [spawnWhiteBlock, if_neg hLne]
    refine ⟨i0, hilen, hinact, by rw [hsp], by rw [hsp], by rw [hsp], by rw [hsp],
      by rw [hsp], by rw [hsp], ?_⟩
    intro j hj
    rw [hsp]
    show (s.gameBoard.set i0 _).getD j default = s.gameBoard.getD j default
    exact getD_set_ne s.gameBoard (Ne.symm hj) _

/-- Witness for C8: spawning on the fresh board increments the spawn
counter. -/
theorem spawner_tick_spec_witness :
    (spawnWhiteBlock 0 freshStart).totalSpawned = freshStart.totalSpawned + 1 := by
  obtain ⟨i, hilen, hinact, hboard, hts, hrest⟩ :=
    (spawner_tick_spec 0 freshStart).2 (by decide)
  exact hts

end GameView
